import Mathlib

/-!
# Verification of the gravity multi-backend operation resolver and phase dispatcher

Shallow embedding of `tool/gravity/cli/operation.go`: the operation data
model, the multi-backend resolver (`backendOperations.List`,
`getBackendOperations`, `getLastOperation`, `getActiveOperation`,
`getActiveOperationFromList`) and the phase dispatcher (`ExecutePhase`,
`RollbackPhase`, `completeOperationPlan`, `ResumeOperation`).

External collaborators (backends, the remote operator API, per-type phase
handlers, the installer) are modelled as explicit inputs: each backend read
becomes an `Option`-valued field of `ListInputs`, and each handler becomes a
field of `Handlers`.  Errors of the `trace` package are modelled by
`TraceError`, with `trace.Wrap` preserving the error kind (identity here).

Go iterates `backendOperations.operations` (a Go map) in unspecified order;
that enumeration order is made explicit as a list parameter (`enum`), with
`BackendOperations.IsEnumOf` tying it to the merged map of a resolution pass.
-/

/-- Errors of the `trace` package, by kind: `trace.NotFound`,
`trace.BadParameter`, and any other error kind (I/O failures etc.).
`trace.Wrap` preserves the kind, so wrapping is the identity here. -/
inductive TraceError where
  | notFound (msg : String)
  | badParameter (msg : String)
  | other (msg : String)
deriving DecidableEq, Repr

/-- Model of `trace.IsNotFound`. -/
def TraceError.isNotFound : TraceError → Bool
  | .notFound _ => true
  | _ => false

/-- Modelled from the spec: the operation-type constants of `lib/ops`
(not under the provided sources) are distinct strings naming the six
operation types of §3.  Only their distinctness matters here. -/
def OperationInstall : String := "operation_install"

/-- Modelled from the spec: see `OperationInstall`. -/
def OperationExpand : String := "operation_expand"

/-- Modelled from the spec: see `OperationInstall`. -/
def OperationUpdate : String := "operation_update"

/-- Modelled from the spec: see `OperationInstall`. -/
def OperationUpdateRuntimeEnviron : String := "operation_update_environ"

/-- Modelled from the spec: see `OperationInstall`. -/
def OperationUpdateConfig : String := "operation_update_config"

/-- Modelled from the spec: see `OperationInstall`. -/
def OperationGarbageCollect : String := "operation_gc"

/-- Modelled from the spec: `fsm.RootPhase` of `lib/fsm` (not under the
provided sources), the identifier of the root phase of a plan. -/
def RootPhase : String := "/"

/-- Model of `ops.SiteOperation`, restricted to the fields this core reads:
identity, type, creation time, and completion status.  `created` is a
timestamp used only for ordering, so it is modelled as `Nat`;
`completed` is the observable result of `op.IsCompleted()` (from
`lib/ops`, not under the provided sources), modelled from the spec:
an operation is active iff not completed. -/
structure SiteOperation where
  id : String
  opType : String
  created : Nat
  completed : Bool
deriving DecidableEq, Repr

/-- Modelled from the spec: `op.IsCompleted()`, see `SiteOperation`. -/
def SiteOperation.IsCompleted (op : SiteOperation) : Bool :=
  op.completed

/-- Insert-with-overwrite into an association list keyed by operation ID:
the model of `r.operations[op.ID] = op` on a Go map. -/
def mapInsert : List (String × SiteOperation) → SiteOperation → List (String × SiteOperation)
  | [], op => [(op.id, op)]
  | (k, v) :: rest, op =>
    if k = op.id then (k, op) :: rest else (k, v) :: mapInsert rest op

/-- Lookup in the association list: the model of `r.operations[id]`. -/
def mapLookup : List (String × SiteOperation) → String → Option SiteOperation
  | [], _ => none
  | (k, v) :: rest, idq => if k = idq then some v else mapLookup rest idq

/-- The values of the map, in the order of the backing list (the Go map
enumerates them in unspecified order; see `BackendOperations.IsEnumOf`). -/
def mapValues (m : List (String × SiteOperation)) : List SiteOperation :=
  m.map Prod.snd

/-- The `backendOperations` struct: the merged operation set keyed by ID and
the Cluster Operation Pointer (`clusterOperation`). -/
structure BackendOperations where
  operations : List (String × SiteOperation)
  clusterOperation : Option SiteOperation
deriving DecidableEq, Repr

/-- Model of `newBackendOperations()`. -/
def newBackendOperations : BackendOperations :=
  { operations := [], clusterOperation := none }

/-- Model of `backendOperations.init`, given the successful result of
`storage.GetOperations` on the cluster backend.  Modelled from the spec:
`storage.GetOperations` (not under the provided sources) returns the cluster
operations most-recently-created first, so the pointer is the head.
Inserts every cluster operation into the merged set, sets the Cluster
Operation Pointer to the first element and re-inserts it. -/
def BackendOperations.init (r : BackendOperations) (clusterOperations : List SiteOperation) :
    BackendOperations :=
  match clusterOperations with
  | [] => r
  | first :: _ =>
    let ops := clusterOperations.foldl mapInsert r.operations
    { operations := mapInsert ops first, clusterOperation := some first }

/-- Model of `backendOperations.getOperationAndUpdateCache`: on a successful getter
result the operation overwrites the cached entry for its ID; on getter
failure (`none`) the failure is logged and the state is unchanged. -/
def BackendOperations.getOperationAndUpdateCache (r : BackendOperations)
    (res : Option SiteOperation) : BackendOperations :=
  match res with
  | some op => { r with operations := mapInsert r.operations op }
  | none => r

/-- Model of `backendOperations.isActiveInstallOperation`: true iff the Cluster
Operation Pointer is absent or points at an Install operation. -/
def BackendOperations.isActiveInstallOperation (r : BackendOperations) : Bool :=
  match r.clusterOperation with
  | none => true
  | some op => op.opType = OperationInstall

/-- The external reads performed by one `backendOperations.List` pass.
`none` models the corresponding failure; an absent environment
(`updateSrc`/`joinSrc` outer `none`) models a nil `updateEnv`/`joinEnv`. -/
structure ListInputs where
  /-- Whether `NewClusterEnvironment` succeeded (`clusterEnv != nil`). -/
  clusterEnvOk : Bool
  /-- Result of `storage.GetOperations` on the cluster backend when queried;
  `none` models a query failure (swallowed with a logged warning). -/
  clusterOps : Option (List SiteOperation)
  /-- Holds `some res` when `updateEnv != nil`; `res` is the result of
  `getOperationFromBackend(updateEnv.Backend)`. -/
  updateSrc : Option (Option SiteOperation)
  /-- Holds `some res` when `joinEnv != nil`; `res` is the result of
  `getOperationFromBackend(joinEnv.Backend)`. -/
  joinSrc : Option (Option SiteOperation)
  /-- Whether `NewRemoteEnvironment` succeeded with a non-nil `Operator` and
  `GetLocalSite` succeeded. -/
  remoteEnvOk : Bool
  /-- Result of `getOperationFromOperator` when the remote path is taken. -/
  remoteOp : Option SiteOperation
  /-- Error of `NewLocalWizardEnvironment`, when it fails. -/
  wizardLocalEnvErr : Option TraceError
  /-- Result of `getOperationFromBackend(wizardLocalEnv.Backend)` when the
  local wizard path is taken. -/
  wizardLocalOp : Option SiteOperation
deriving DecidableEq, Repr

/-- The first three steps of `backendOperations.List`: query the cluster
backend (failures swallowed), then merge the update-environment source,
then the join-environment source. -/
def BackendOperations.listFirstThree (inp : ListInputs) : BackendOperations :=
  let r := newBackendOperations
  let r := if inp.clusterEnvOk then
      match inp.clusterOps with
      | some l => r.init l
      | none => r
    else r
  let r := match inp.updateSrc with
    | some res => r.getOperationAndUpdateCache res
    | none => r
  match inp.joinSrc with
  | some res => r.getOperationAndUpdateCache res
  | none => r

/-- Model of `backendOperations.List`: the three-source prefix, then — only when
`isActiveInstallOperation` — the install sources: the remote operator API
first (on success its result is merged, best-effort, and the pass ends),
otherwise the local wizard environment backend, whose creation failure is
the one fatal error of the pass.  (Named `List` in the source; renamed to
avoid shadowing the list type inside this namespace.) -/
def BackendOperations.list (inp : ListInputs) : Except TraceError BackendOperations :=
  let r := BackendOperations.listFirstThree inp
  if r.isActiveInstallOperation then
    if inp.remoteEnvOk then
      .ok (r.getOperationAndUpdateCache inp.remoteOp)
    else
      match inp.wizardLocalEnvErr with
      | some e => .error e
      | none => .ok (r.getOperationAndUpdateCache inp.wizardLocalOp)
  else
    .ok r

/-- Holds when `enum` is one possible iteration order of the merged map `r.operations`
of a resolution pass (Go map iteration order is unspecified). -/
def BackendOperations.IsEnumOf (r : BackendOperations) (enum : List SiteOperation) : Prop :=
  enum.Perm (mapValues r.operations)

/-- The comparison `result[i].Created.After(result[j].Created)` induces this
descending order; `sort.Slice` leaves the list pairwise `opGE`-descending. -/
def opGE (a b : SiteOperation) : Bool :=
  b.created ≤ a.created

/-- The ID filter of `getBackendOperations`: keep `op` iff the filter is
empty or equals `op.ID`. -/
def matchesFilter (operationID : String) (op : SiteOperation) : Bool :=
  operationID = "" || operationID = op.id

/-- The filter-then-sort tail of `getBackendOperations`, applied to one
iteration order `enum` of the merged map: keep operations matching the ID
filter and sort by creation time descending. -/
def getBackendOperations (enum : List SiteOperation) (operationID : String) :
    List SiteOperation :=
  (enum.filter (matchesFilter operationID)).mergeSort opGE

/-- Model of `getLastOperation`, from the filtered-and-sorted operations of one
resolution pass (`enum` is the map iteration order; see
`getBackendOperations`): on an empty filtered set fail with `NotFound`
distinguishing the non-empty-filter case; otherwise return the first
(most recent) element.  The multiple-candidate case only logs. -/
def getLastOperation (enum : List SiteOperation) (operationID : String) :
    Except TraceError SiteOperation :=
  let operations := getBackendOperations enum operationID
  match operations with
  | [] =>
    if operationID ≠ "" then
      .error (.notFound ("no operation with ID " ++ operationID ++ " found"))
    else
      .error (.notFound "no operation found")
  | op :: _ => .ok op

/-- Model of `getActiveOperationFromList`: scan the (already recency-sorted) list and
return the first non-completed operation; fail with `NotFound` when every
candidate is completed. -/
def getActiveOperationFromList (operations : List SiteOperation) :
    Except TraceError SiteOperation :=
  match operations.find? (fun op => !op.IsCompleted) with
  | some op => .ok op
  | none => .error (.notFound "no active operations found")

/-- Model of `getActiveOperation`: same empty-set errors as `getLastOperation`,
otherwise delegate to `getActiveOperationFromList` on the sorted list. -/
def getActiveOperation (enum : List SiteOperation) (operationID : String) :
    Except TraceError SiteOperation :=
  let operations := getBackendOperations enum operationID
  match operations with
  | [] =>
    if operationID ≠ "" then
      .error (.notFound ("no operation with ID " ++ operationID ++ " found"))
    else
      .error (.notFound "no operation found")
  | _ :: _ => getActiveOperationFromList operations

/-- The non-installer fields of `PhaseParams` (the fields every handler can
read).  The injectable installer is kept separately in `PhaseParams` to
avoid a circular structure. -/
structure PhaseBase where
  phaseID : String
  operationID : String
  force : Bool
  timeout : Nat
  skipVersionCheck : Bool
deriving DecidableEq, Repr

/-- The `Installer` capability: substitutable behaviours for
installation-specific phase execution, rollback, and restart.  Each
behaviour is modelled by its resulting error (`none` = success). -/
structure InstallerImpl where
  executePhase : PhaseBase → SiteOperation → Option TraceError
  rollbackPhase : PhaseBase → SiteOperation → Option TraceError
  restart : Option TraceError

/-- Model of `PhaseParams`: the phase-action inputs plus the optional injectable
installer (`none` models a nil `Installer`). -/
structure PhaseParams where
  base : PhaseBase
  installer : Option InstallerImpl

/-- The external type-specific handlers and completers the dispatcher can
invoke, each modelled by its resulting error (`none` = success):
`executeInstallPhase`/`rollbackInstallPhase` and `startInstall` back the
built-in `defaultInstaller`; the rest are the fixed per-type handlers. -/
structure Handlers where
  executeInstallPhase : PhaseBase → SiteOperation → Option TraceError
  rollbackInstallPhase : PhaseBase → SiteOperation → Option TraceError
  startInstall : Option TraceError
  executeJoinPhase : PhaseBase → SiteOperation → Option TraceError
  rollbackJoinPhase : PhaseBase → SiteOperation → Option TraceError
  completeJoinPlan : SiteOperation → Option TraceError
  executeUpdatePhase : PhaseBase → SiteOperation → Option TraceError
  rollbackUpdatePhase : PhaseBase → SiteOperation → Option TraceError
  completeUpdatePlan : SiteOperation → Option TraceError
  executeEnvironPhase : PhaseBase → SiteOperation → Option TraceError
  rollbackEnvironPhase : PhaseBase → SiteOperation → Option TraceError
  completeEnvironPlan : SiteOperation → Option TraceError
  executeConfigPhase : PhaseBase → SiteOperation → Option TraceError
  rollbackConfigPhase : PhaseBase → SiteOperation → Option TraceError
  completeConfigPlan : SiteOperation → Option TraceError
  executeGarbageCollectPhase : PhaseBase → SiteOperation → Option TraceError
  completeInstallPlan : SiteOperation → Option TraceError

/-- Model of `defaultInstaller`: the built-in installer, delegating to
`executeInstallPhase`, `rollbackInstallPhase` and
`startInstall(NewDefaultInstallConfig())` (wrapping preserves the error). -/
def defaultInstaller (h : Handlers) : InstallerImpl :=
  { executePhase := h.executeInstallPhase
    rollbackPhase := h.rollbackInstallPhase
    restart := h.startInstall }

/-- Go's `%q` on the escape-free operation-type strings: double quotes. -/
def quoteStr (s : String) : String :=
  "\"" ++ s ++ "\""

/-- Model of `ExecutePhase`: resolve the active operation, then switch on its type:
Install goes through the injectable installer (built-in when nil), the
other listed types to their fixed handlers, anything else fails with
`BadParameter` naming the type and the action. -/
def ExecutePhase (h : Handlers) (enum : List SiteOperation) (params : PhaseParams) :
    Option TraceError :=
  match getActiveOperation enum params.base.operationID with
  | .error e => some e
  | .ok op =>
    if op.opType = OperationInstall then
      (params.installer.getD (defaultInstaller h)).executePhase params.base op
    else if op.opType = OperationExpand then
      h.executeJoinPhase params.base op
    else if op.opType = OperationUpdate then
      h.executeUpdatePhase params.base op
    else if op.opType = OperationUpdateRuntimeEnviron then
      h.executeEnvironPhase params.base op
    else if op.opType = OperationUpdateConfig then
      h.executeConfigPhase params.base op
    else if op.opType = OperationGarbageCollect then
      h.executeGarbageCollectPhase params.base op
    else
      some (.badParameter
        ("operation type " ++ quoteStr op.opType ++ " does not support plan execution"))

/-- Model of `RollbackPhase`: like `ExecutePhase` but with the rollback handlers and
no GarbageCollect case. -/
def RollbackPhase (h : Handlers) (enum : List SiteOperation) (params : PhaseParams) :
    Option TraceError :=
  match getActiveOperation enum params.base.operationID with
  | .error e => some e
  | .ok op =>
    if op.opType = OperationInstall then
      (params.installer.getD (defaultInstaller h)).rollbackPhase params.base op
    else if op.opType = OperationExpand then
      h.rollbackJoinPhase params.base op
    else if op.opType = OperationUpdate then
      h.rollbackUpdatePhase params.base op
    else if op.opType = OperationUpdateRuntimeEnviron then
      h.rollbackEnvironPhase params.base op
    else if op.opType = OperationUpdateConfig then
      h.rollbackConfigPhase params.base op
    else
      some (.badParameter
        ("operation type " ++ quoteStr op.opType ++ " does not support plan rollback"))

/-- Model of `completeOperationPlan`: like `ExecutePhase` but with the per-type plan
completers and no GarbageCollect case. -/
def completeOperationPlan (h : Handlers) (enum : List SiteOperation) (operationID : String) :
    Option TraceError :=
  match getActiveOperation enum operationID with
  | .error e => some e
  | .ok op =>
    if op.opType = OperationInstall then
      h.completeInstallPlan op
    else if op.opType = OperationExpand then
      h.completeJoinPlan op
    else if op.opType = OperationUpdate then
      h.completeUpdatePlan op
    else if op.opType = OperationUpdateRuntimeEnviron then
      h.completeEnvironPlan op
    else if op.opType = OperationUpdateConfig then
      h.completeConfigPlan op
    else
      some (.badParameter
        ("operation type " ++ quoteStr op.opType ++ " does not support plan completion"))

/-- The parameters `ResumeOperation` actually hands to `ExecutePhase`: the
installer defaulted when nil, and the phase ID overwritten with the root
phase. -/
def resumeEffectiveParams (h : Handlers) (params : PhaseParams) : PhaseParams :=
  { base := { params.base with phaseID := RootPhase }
    installer := some (params.installer.getD (defaultInstaller h)) }

/-- Model of `ResumeOperation`: execute the root phase of the active operation; on a
`NotFound` failure fall back to `Installer.Restart`; propagate any other
failure unchanged (wrapping preserves the kind). -/
def ResumeOperation (h : Handlers) (enum : List SiteOperation) (params : PhaseParams) :
    Option TraceError :=
  let params := resumeEffectiveParams h params
  match ExecutePhase h enum params with
  | none => none
  | some e =>
    if e.isNotFound then
      (params.installer.getD (defaultInstaller h)).restart
    else
      some e

theorem opGE_trans : ∀ (a b c : SiteOperation), opGE a b → opGE b c → opGE a c := by
  intro a b c hab hbc
  simp only [opGE, decide_eq_true_eq] at *
  omega

theorem opGE_total : ∀ (a b : SiteOperation), opGE a b || opGE b a := by
  intro a b
  simp only [opGE, Bool.or_eq_true, decide_eq_true_eq]
  omega

theorem getBackendOperations_perm (enum : List SiteOperation) (operationID : String) :
    (getBackendOperations enum operationID).Perm
      (enum.filter (matchesFilter operationID)) :=
  List.mergeSort_perm _ _

theorem getBackendOperations_sorted (enum : List SiteOperation) (operationID : String) :
    (getBackendOperations enum operationID).Pairwise (fun a b => opGE a b = true) := by
  exact List.sorted_mergeSort opGE_trans opGE_total
    (enum.filter (matchesFilter operationID))

theorem mem_getBackendOperations {a : SiteOperation} {enum : List SiteOperation}
    {operationID : String} :
    a ∈ getBackendOperations enum operationID ↔
      a ∈ enum.filter (matchesFilter operationID) :=
  List.mem_mergeSort

theorem getBackendOperations_eq_nil_iff (enum : List SiteOperation) (operationID : String) :
    getBackendOperations enum operationID = [] ↔
      enum.filter (matchesFilter operationID) = [] := by
  rw [← List.length_eq_zero, ← List.length_eq_zero, getBackendOperations,
    List.length_mergeSort]

/-- In a list sorted by `Created` descending, the first element satisfying a
predicate has the maximal creation time among the elements satisfying it. -/
theorem find?_created_max_of_sorted (p : SiteOperation → Bool) :
    ∀ (l : List SiteOperation), l.Pairwise (fun a b => opGE a b = true) →
      ∀ (a : SiteOperation), l.find? p = some a →
        ∀ b ∈ l, p b = true → b.created ≤ a.created := by
  intro l
  induction l with
  | nil => intro _ a hf; simp at hf
  | cons x xs ih =>
    intro hs a hf b hb hpb
    rw [List.pairwise_cons] at hs
    rw [List.find?_cons] at hf
    by_cases hx : p x
    · simp only [hx, if_pos] at hf
      injection hf with hf
      subst hf
      rcases List.mem_cons.mp hb with hbx | hbxs
      · subst hbx; exact Nat.le_refl _
      · have := hs.1 b hbxs
        simpa [opGE] using this
    · simp only [hx, if_neg, Bool.false_eq_true] at hf
      rcases List.mem_cons.mp hb with hbx | hbxs
      · subst hbx; exact absurd hpb hx
      · exact ih hs.2 a hf b hbxs hpb

theorem getLastOperation_cons {enum : List SiteOperation} {operationID : String}
    {x : SiteOperation} {rest : List SiteOperation}
    (hl : getBackendOperations enum operationID = x :: rest) :
    getLastOperation enum operationID = .ok x := by
  simp only [getLastOperation]
  rw [hl]

theorem getActiveOperation_cons {enum : List SiteOperation} {operationID : String}
    {x : SiteOperation} {rest : List SiteOperation}
    (hl : getBackendOperations enum operationID = x :: rest) :
    getActiveOperation enum operationID =
      getActiveOperationFromList (getBackendOperations enum operationID) := by
  simp only [getActiveOperation]
  rw [hl]

/-- C1: on a filtered operation set with at least one non-completed
operation, `getActiveOperation` returns the first non-completed candidate of
the recency-sorted list — a non-completed operation whose creation time is
maximal among the non-completed candidates — and when the filtered set is
non-empty but fully completed it fails with NotFound
"no active operations found". -/
theorem getActiveOperation_returns_active (enum : List SiteOperation) (operationID : String) :
    ((∃ op ∈ enum.filter (matchesFilter operationID), op.IsCompleted = false) →
      ∃ op, getActiveOperation enum operationID = .ok op ∧
        op.IsCompleted = false ∧
        op ∈ enum.filter (matchesFilter operationID) ∧
        (getBackendOperations enum operationID).find? (fun o => !o.IsCompleted) = some op ∧
        ∀ op' ∈ enum.filter (matchesFilter operationID),
          op'.IsCompleted = false → op'.created ≤ op.created)
    ∧ (enum.filter (matchesFilter operationID) ≠ [] →
        (∀ op ∈ enum.filter (matchesFilter operationID), op.IsCompleted = true) →
        getActiveOperation enum operationID =
          .error (.notFound "no active operations found")) := by
  constructor
  · rintro ⟨op0, hmem0, hnc0⟩
    have hmem0' : op0 ∈ getBackendOperations enum operationID :=
      mem_getBackendOperations.mpr hmem0
    have hnil : getBackendOperations enum operationID ≠ [] := List.ne_nil_of_mem hmem0'
    cases hfind : (getBackendOperations enum operationID).find? (fun o => !o.IsCompleted) with
    | none =>
      exfalso
      have := List.find?_eq_none.mp hfind op0 hmem0'
      simp only [Bool.not_eq_true', Bool.not_eq_false] at this
      rw [this] at hnc0
      exact Bool.true_eq_false.mp hnc0
    | some a =>
      obtain ⟨x, rest, hl⟩ := List.exists_cons_of_ne_nil hnil
      refine ⟨a, ?_, ?_, ?_, ?_, ?_⟩
      · rw [getActiveOperation_cons hl]
        simp only [getActiveOperationFromList, hfind]
      · have := List.find?_some hfind
        simpa using this
      · exact mem_getBackendOperations.mp (List.mem_of_find?_eq_some hfind)
      · rfl
      · intro op' hop' hnc'
        refine find?_created_max_of_sorted _ _ (getBackendOperations_sorted enum operationID)
          a hfind op' (mem_getBackendOperations.mpr hop') ?_
        simp [hnc']
  · intro hne hall
    have hnil : getBackendOperations enum operationID ≠ [] := by
      intro h
      exact hne ((getBackendOperations_eq_nil_iff enum operationID).mp h)
    obtain ⟨x, rest, hl⟩ := List.exists_cons_of_ne_nil hnil
    rw [getActiveOperation_cons hl]
    have hfind : (getBackendOperations enum operationID).find? (fun o => !o.IsCompleted)
        = none := by
      rw [List.find?_eq_none]
      intro b hb
      have := hall b (mem_getBackendOperations.mp hb)
      simp [this]
    simp only [getActiveOperationFromList, hfind]

/-- Witness for `getActiveOperation_returns_active` at a concrete input:
two operations, the completed one more recent. -/
theorem getActiveOperation_returns_active_witness :
    ∃ op,
      getActiveOperation
        [⟨"a", "operation_update", 9, true⟩, ⟨"b", "operation_update", 5, false⟩] "" =
          .ok op ∧
      op.IsCompleted = false ∧
      op ∈ List.filter (matchesFilter "")
        [⟨"a", "operation_update", 9, true⟩, ⟨"b", "operation_update", 5, false⟩] ∧
      (getBackendOperations
        [⟨"a", "operation_update", 9, true⟩, ⟨"b", "operation_update", 5, false⟩] "").find?
          (fun o => !o.IsCompleted) = some op ∧
      ∀ op' ∈ List.filter (matchesFilter "")
        [⟨"a", "operation_update", 9, true⟩, ⟨"b", "operation_update", 5, false⟩],
        op'.IsCompleted = false → op'.created ≤ op.created :=
  (getActiveOperation_returns_active
    [⟨"a", "operation_update", 9, true⟩, ⟨"b", "operation_update", 5, false⟩] "").1
    ⟨⟨"b", "operation_update", 5, false⟩, by decide, by decide⟩

/-- C7: on a non-empty ID-filtered operation set, `getLastOperation`
returns — never an error — an operation of the filtered set whose `Created`
timestamp is maximal among the candidates (the head of the
recency-sorted list, also when several candidates remain). -/
theorem getLastOperation_most_recent (enum : List SiteOperation) (operationID : String)
    (hne : enum.filter (matchesFilter operationID) ≠ []) :
    ∃ op, getLastOperation enum operationID = .ok op ∧
      op ∈ enum.filter (matchesFilter operationID) ∧
      ∀ op' ∈ enum.filter (matchesFilter operationID), op'.created ≤ op.created := by
  have hnil : getBackendOperations enum operationID ≠ [] := by
    intro h
    exact hne ((getBackendOperations_eq_nil_iff enum operationID).mp h)
  obtain ⟨x, rest, hl⟩ := List.exists_cons_of_ne_nil hnil
  refine ⟨x, getLastOperation_cons hl, ?_, ?_⟩
  · exact mem_getBackendOperations.mp (hl ▸ List.mem_cons_self x rest)
  · intro op' hop'
    have hmem' : op' ∈ getBackendOperations enum operationID :=
      mem_getBackendOperations.mpr hop'
    rw [hl] at hmem'
    rcases List.mem_cons.mp hmem' with hex | hrest
    · subst hex
      exact Nat.le_refl _
    · have hs := getBackendOperations_sorted enum operationID
      rw [hl, List.pairwise_cons] at hs
      have := hs.1 op' hrest
      simpa [opGE] using this

/-- Witness for `getLastOperation_most_recent` at a concrete input. -/
theorem getLastOperation_most_recent_witness :
    ∃ op,
      getLastOperation
        [⟨"a", "operation_update", 3, true⟩, ⟨"b", "operation_expand", 8, false⟩] "" =
          .ok op ∧
      op ∈ List.filter (matchesFilter "")
        [⟨"a", "operation_update", 3, true⟩, ⟨"b", "operation_expand", 8, false⟩] ∧
      ∀ op' ∈ List.filter (matchesFilter "")
        [⟨"a", "operation_update", 3, true⟩, ⟨"b", "operation_expand", 8, false⟩],
        op'.created ≤ op.created :=
  getLastOperation_most_recent
    [⟨"a", "operation_update", 3, true⟩, ⟨"b", "operation_expand", 8, false⟩] ""
    (by decide)

/-- C8: on an empty ID-filtered operation set both `getLastOperation` and
`getActiveOperation` fail with NotFound, the message distinguishing the
non-empty-filter case ("no operation with ID X found") from the empty-filter
case ("no operation found"). -/
theorem empty_filtered_set_notFound (enum : List SiteOperation) (operationID : String)
    (hempty : enum.filter (matchesFilter operationID) = []) :
    (operationID ≠ "" →
      getLastOperation enum operationID =
        .error (.notFound ("no operation with ID " ++ operationID ++ " found")) ∧
      getActiveOperation enum operationID =
        .error (.notFound ("no operation with ID " ++ operationID ++ " found")))
    ∧ (operationID = "" →
      getLastOperation enum operationID = .error (.notFound "no operation found") ∧
      getActiveOperation enum operationID = .error (.notFound "no operation found")) := by
  have hnil : getBackendOperations enum operationID = [] :=
    (getBackendOperations_eq_nil_iff enum operationID).mpr hempty
  constructor
  · intro hid
    constructor
    · simp only [getLastOperation]
      rw [hnil]
      simp [hid]
    · simp only [getActiveOperation]
      rw [hnil]
      simp [hid]
  · intro hid
    subst hid
    constructor
    · simp only [getLastOperation]
      rw [hnil]
      simp
    · simp only [getActiveOperation]
      rw [hnil]
      simp

/-- Witness for `empty_filtered_set_notFound` at concrete inputs (both a
non-empty and an empty ID filter over an empty operation set). -/
theorem empty_filtered_set_notFound_witness :
    (("xyz" ≠ "" →
      getLastOperation [] "xyz" =
        .error (.notFound ("no operation with ID " ++ "xyz" ++ " found")) ∧
      getActiveOperation [] "xyz" =
        .error (.notFound ("no operation with ID " ++ "xyz" ++ " found")))
    ∧ ("xyz" = "" →
      getLastOperation [] "xyz" = .error (.notFound "no operation found") ∧
      getActiveOperation [] "xyz" = .error (.notFound "no operation found")))
    ∧ ((("" : String) ≠ "" →
      getLastOperation [] "" =
        .error (.notFound ("no operation with ID " ++ "" ++ " found")) ∧
      getActiveOperation [] "" =
        .error (.notFound ("no operation with ID " ++ "" ++ " found")))
    ∧ (("" : String) = "" →
      getLastOperation [] "" = .error (.notFound "no operation found") ∧
      getActiveOperation [] "" = .error (.notFound "no operation found"))) := by
  constructor
  · exact empty_filtered_set_notFound [] "xyz" (by decide)
  · exact empty_filtered_set_notFound [] "" (by decide)

/-- A concrete handler assignment with pairwise distinct observable results,
used to instantiate dispatch theorems. -/
def testHandlers : Handlers :=
  { executeInstallPhase := fun _ _ => some (.other "executeInstallPhase")
    rollbackInstallPhase := fun _ _ => some (.other "rollbackInstallPhase")
    startInstall := some (.other "startInstall")
    executeJoinPhase := fun _ _ => some (.other "executeJoinPhase")
    rollbackJoinPhase := fun _ _ => some (.other "rollbackJoinPhase")
    completeJoinPlan := fun _ => some (.other "completeJoinPlan")
    executeUpdatePhase := fun _ _ => some (.other "executeUpdatePhase")
    rollbackUpdatePhase := fun _ _ => some (.other "rollbackUpdatePhase")
    completeUpdatePlan := fun _ => some (.other "completeUpdatePlan")
    executeEnvironPhase := fun _ _ => some (.other "executeEnvironPhase")
    rollbackEnvironPhase := fun _ _ => some (.other "rollbackEnvironPhase")
    completeEnvironPlan := fun _ => some (.other "completeEnvironPlan")
    executeConfigPhase := fun _ _ => some (.other "executeConfigPhase")
    rollbackConfigPhase := fun _ _ => some (.other "rollbackConfigPhase")
    completeConfigPlan := fun _ => some (.other "completeConfigPlan")
    executeGarbageCollectPhase := fun _ _ => some (.other "executeGarbageCollectPhase")
    completeInstallPlan := fun _ => some (.other "completeInstallPlan") }

/-- Concrete phase parameters with a nil installer and an empty ID filter. -/
def testParams : PhaseParams :=
  { base :=
    { phaseID := "p", operationID := "", force := false, timeout := 0,
      skipVersionCheck := false }
    installer := none }

/-- A concrete non-completed GarbageCollect operation. -/
def gcTestOp : SiteOperation :=
  { id := "gc1", opType := OperationGarbageCollect, created := 4, completed := false }

/-- C2: whenever the active-operation query resolves to `op`, each of
`ExecutePhase`, `RollbackPhase` and `completeOperationPlan` routes to exactly
the handler of the §4.2 table for `op`'s type (Install through the
injectable installer, the built-in one when none is supplied), and every
type/action combination outside the table — in particular rollback and
completion of a GarbageCollect operation — fails with BadParameter naming
the operation type and the unsupported action. -/
theorem dispatch_table_routes (h : Handlers) (enum : List SiteOperation)
    (params : PhaseParams) (op : SiteOperation)
    (hop : getActiveOperation enum params.base.operationID = .ok op) :
    ((op.opType = OperationInstall →
        ExecutePhase h enum params =
          (params.installer.getD (defaultInstaller h)).executePhase params.base op ∧
        (params.installer = none →
          ExecutePhase h enum params = h.executeInstallPhase params.base op)) ∧
     (op.opType = OperationExpand →
        ExecutePhase h enum params = h.executeJoinPhase params.base op) ∧
     (op.opType = OperationUpdate →
        ExecutePhase h enum params = h.executeUpdatePhase params.base op) ∧
     (op.opType = OperationUpdateRuntimeEnviron →
        ExecutePhase h enum params = h.executeEnvironPhase params.base op) ∧
     (op.opType = OperationUpdateConfig →
        ExecutePhase h enum params = h.executeConfigPhase params.base op) ∧
     (op.opType = OperationGarbageCollect →
        ExecutePhase h enum params = h.executeGarbageCollectPhase params.base op) ∧
     (op.opType ∉ [OperationInstall, OperationExpand, OperationUpdate,
        OperationUpdateRuntimeEnviron, OperationUpdateConfig, OperationGarbageCollect] →
        ExecutePhase h enum params = some (.badParameter
          ("operation type " ++ quoteStr op.opType ++ " does not support plan execution"))))
    ∧
    ((op.opType = OperationInstall →
        RollbackPhase h enum params =
          (params.installer.getD (defaultInstaller h)).rollbackPhase params.base op ∧
        (params.installer = none →
          RollbackPhase h enum params = h.rollbackInstallPhase params.base op)) ∧
     (op.opType = OperationExpand →
        RollbackPhase h enum params = h.rollbackJoinPhase params.base op) ∧
     (op.opType = OperationUpdate →
        RollbackPhase h enum params = h.rollbackUpdatePhase params.base op) ∧
     (op.opType = OperationUpdateRuntimeEnviron →
        RollbackPhase h enum params = h.rollbackEnvironPhase params.base op) ∧
     (op.opType = OperationUpdateConfig →
        RollbackPhase h enum params = h.rollbackConfigPhase params.base op) ∧
     (op.opType = OperationGarbageCollect →
        RollbackPhase h enum params = some (.badParameter
          ("operation type " ++ quoteStr op.opType ++ " does not support plan rollback"))) ∧
     (op.opType ∉ [OperationInstall, OperationExpand, OperationUpdate,
        OperationUpdateRuntimeEnviron, OperationUpdateConfig] →
        RollbackPhase h enum params = some (.badParameter
          ("operation type " ++ quoteStr op.opType ++ " does not support plan rollback"))))
    ∧
    ((op.opType = OperationInstall →
        completeOperationPlan h enum params.base.operationID = h.completeInstallPlan op) ∧
     (op.opType = OperationExpand →
        completeOperationPlan h enum params.base.operationID = h.completeJoinPlan op) ∧
     (op.opType = OperationUpdate →
        completeOperationPlan h enum params.base.operationID = h.completeUpdatePlan op) ∧
     (op.opType = OperationUpdateRuntimeEnviron →
        completeOperationPlan h enum params.base.operationID = h.completeEnvironPlan op) ∧
     (op.opType = OperationUpdateConfig →
        completeOperationPlan h enum params.base.operationID = h.completeConfigPlan op) ∧
     (op.opType = OperationGarbageCollect →
        completeOperationPlan h enum params.base.operationID = some (.badParameter
          ("operation type " ++ quoteStr op.opType ++ " does not support plan completion"))) ∧
     (op.opType ∉ [OperationInstall, OperationExpand, OperationUpdate,
        OperationUpdateRuntimeEnviron, OperationUpdateConfig] →
        completeOperationPlan h enum params.base.operationID = some (.badParameter
          ("operation type " ++ quoteStr op.opType ++ " does not support plan completion")))) := by
  refine ⟨⟨?_, ?_, ?_, ?_, ?_, ?_, ?_⟩, ⟨?_, ?_, ?_, ?_, ?_, ?_, ?_⟩,
    ⟨?_, ?_, ?_, ?_, ?_, ?_, ?_⟩⟩
  · intro ht
    constructor
    · simp [ExecutePhase, hop, ht]
    · intro hni
      simp [ExecutePhase, hop, ht, hni, defaultInstaller]
  · intro ht
    simp [ExecutePhase, hop, ht, OperationExpand, OperationInstall]
  · intro ht
    simp [ExecutePhase, hop, ht, OperationUpdate, OperationInstall, OperationExpand]
  · intro ht
    simp [ExecutePhase, hop, ht, OperationUpdateRuntimeEnviron, OperationInstall,
      OperationExpand, OperationUpdate]
  · intro ht
    simp [ExecutePhase, hop, ht, OperationUpdateConfig, OperationInstall, OperationExpand,
      OperationUpdate, OperationUpdateRuntimeEnviron]
  · intro ht
    simp [ExecutePhase, hop, ht, OperationGarbageCollect, OperationInstall, OperationExpand,
      OperationUpdate, OperationUpdateRuntimeEnviron, OperationUpdateConfig]
  · intro hnot
    simp only [List.mem_cons, List.not_mem_nil, or_false, not_or] at hnot
    obtain ⟨h1, h2, h3, h4, h5, h6⟩ := hnot
    simp [ExecutePhase, hop, h1, h2, h3, h4, h5, h6]
  · intro ht
    constructor
    · simp [RollbackPhase, hop, ht]
    · intro hni
      simp [RollbackPhase, hop, ht, hni, defaultInstaller]
  · intro ht
    simp [RollbackPhase, hop, ht, OperationExpand, OperationInstall]
  · intro ht
    simp [RollbackPhase, hop, ht, OperationUpdate, OperationInstall, OperationExpand]
  · intro ht
    simp [RollbackPhase, hop, ht, OperationUpdateRuntimeEnviron, OperationInstall,
      OperationExpand, OperationUpdate]
  · intro ht
    simp [RollbackPhase, hop, ht, OperationUpdateConfig, OperationInstall, OperationExpand,
      OperationUpdate, OperationUpdateRuntimeEnviron]
  · intro ht
    simp [RollbackPhase, hop, ht, OperationGarbageCollect, OperationInstall, OperationExpand,
      OperationUpdate, OperationUpdateRuntimeEnviron, OperationUpdateConfig]
  · intro hnot
    simp only [List.mem_cons, List.not_mem_nil, or_false, not_or] at hnot
    obtain ⟨h1, h2, h3, h4, h5⟩ := hnot
    simp [RollbackPhase, hop, h1, h2, h3, h4, h5]
  · intro ht
    simp [completeOperationPlan, hop, ht]
  · intro ht
    simp [completeOperationPlan, hop, ht, OperationExpand, OperationInstall]
  · intro ht
    simp [completeOperationPlan, hop, ht, OperationUpdate, OperationInstall, OperationExpand]
  · intro ht
    simp [completeOperationPlan, hop, ht, OperationUpdateRuntimeEnviron, OperationInstall,
      OperationExpand, OperationUpdate]
  · intro ht
    simp [completeOperationPlan, hop, ht, OperationUpdateConfig, OperationInstall,
      OperationExpand, OperationUpdate, OperationUpdateRuntimeEnviron]
  · intro ht
    simp [completeOperationPlan, hop, ht, OperationGarbageCollect, OperationInstall,
      OperationExpand, OperationUpdate, OperationUpdateRuntimeEnviron, OperationUpdateConfig]
  · intro hnot
    simp only [List.mem_cons, List.not_mem_nil, or_false, not_or] at hnot
    obtain ⟨h1, h2, h3, h4, h5⟩ := hnot
    simp [completeOperationPlan, hop, h1, h2, h3, h4, h5]

/-- Witness for `dispatch_table_routes`: a non-completed GarbageCollect
operation executes through the garbage-collect handler while rollback and
completion fail with BadParameter. -/
theorem dispatch_table_routes_witness :
    ExecutePhase testHandlers [gcTestOp] testParams =
      testHandlers.executeGarbageCollectPhase testParams.base gcTestOp ∧
    RollbackPhase testHandlers [gcTestOp] testParams =
      some (.badParameter
        ("operation type " ++ quoteStr gcTestOp.opType ++ " does not support plan rollback")) ∧
    completeOperationPlan testHandlers [gcTestOp] testParams.base.operationID =
      some (.badParameter
        ("operation type " ++ quoteStr gcTestOp.opType ++
          " does not support plan completion")) := by
  have H := dispatch_table_routes testHandlers [gcTestOp] testParams gcTestOp (by
    simp [getActiveOperation, getBackendOperations, getActiveOperationFromList,
      matchesFilter, gcTestOp, SiteOperation.IsCompleted, testParams])
  exact ⟨H.1.2.2.2.2.2.1 rfl, H.2.1.2.2.2.2.2.1 rfl, H.2.2.2.2.2.2.2.1 rfl⟩

theorem getActiveOperation_error_of_all_completed (enum : List SiteOperation)
    (operationID : String)
    (hall : ∀ op ∈ enum.filter (matchesFilter operationID), op.IsCompleted = true) :
    ∃ msg, getActiveOperation enum operationID = .error (.notFound msg) := by
  cases hnil : getBackendOperations enum operationID with
  | nil =>
    by_cases hid : operationID = ""
    · refine ⟨"no operation found", ?_⟩
      simp only [getActiveOperation]
      rw [hnil]
      simp [hid]
    · refine ⟨"no operation with ID " ++ operationID ++ " found", ?_⟩
      simp only [getActiveOperation]
      rw [hnil]
      simp [hid]
  | cons x rest =>
    refine ⟨"no active operations found", ?_⟩
    rw [getActiveOperation_cons hnil]
    have hfind : (getBackendOperations enum operationID).find? (fun o => !o.IsCompleted)
        = none := by
      rw [List.find?_eq_none]
      intro b hb
      have := hall b (mem_getBackendOperations.mp hb)
      simp [this]
    simp only [getActiveOperationFromList, hfind]

/-- C10: when every operation matching the ID filter is completed, all three
entry points resolve through the active-operation query and fail with the
same NotFound error, for every handler set and every parameter record with
that filter — so no type-specific handler is ever dispatched on a completed
operation. -/
theorem all_completed_no_dispatch (enum : List SiteOperation) (operationID : String)
    (hall : ∀ op ∈ enum.filter (matchesFilter operationID), op.IsCompleted = true) :
    ∃ msg, ∀ (h : Handlers) (params : PhaseParams),
      params.base.operationID = operationID →
      ExecutePhase h enum params = some (.notFound msg) ∧
      RollbackPhase h enum params = some (.notFound msg) ∧
      completeOperationPlan h enum operationID = some (.notFound msg) := by
  obtain ⟨msg, hmsg⟩ := getActiveOperation_error_of_all_completed enum operationID hall
  refine ⟨msg, ?_⟩
  intro h params hpid
  refine ⟨?_, ?_, ?_⟩
  · simp [ExecutePhase, hpid, hmsg]
  · simp [RollbackPhase, hpid, hmsg]
  · simp [completeOperationPlan, hmsg]

/-- Witness for `all_completed_no_dispatch`: one completed operation,
empty filter. -/
theorem all_completed_no_dispatch_witness :
    ∃ msg, ∀ (h : Handlers) (params : PhaseParams),
      params.base.operationID = "" →
      ExecutePhase h [⟨"a", "operation_update", 3, true⟩] params =
        some (.notFound msg) ∧
      RollbackPhase h [⟨"a", "operation_update", 3, true⟩] params =
        some (.notFound msg) ∧
      completeOperationPlan h [⟨"a", "operation_update", 3, true⟩] "" =
        some (.notFound msg) :=
  all_completed_no_dispatch [⟨"a", "operation_update", 3, true⟩] "" (by decide)

/-- C3: `ResumeOperation` overwrites the supplied phase ID with the root
phase, returns nil when `ExecutePhase` succeeds, falls back to
`Installer.Restart` (of the injected installer, or the built-in one when
none was supplied) when `ExecutePhase` fails with NotFound, and propagates
every other failure unchanged. -/
theorem resume_operation_contract (h : Handlers) (enum : List SiteOperation)
    (params : PhaseParams) :
    (∀ s, ResumeOperation h enum
        { params with base := { params.base with phaseID := s } } =
      ResumeOperation h enum params) ∧
    (resumeEffectiveParams h params).base.phaseID = RootPhase ∧
    (ExecutePhase h enum (resumeEffectiveParams h params) = none →
      ResumeOperation h enum params = none) ∧
    (∀ e, ExecutePhase h enum (resumeEffectiveParams h params) = some e →
      e.isNotFound = true →
      ResumeOperation h enum params =
        (params.installer.getD (defaultInstaller h)).restart) ∧
    (∀ e, ExecutePhase h enum (resumeEffectiveParams h params) = some e →
      e.isNotFound = false →
      ResumeOperation h enum params = some e) := by
  refine ⟨?_, rfl, ?_, ?_, ?_⟩
  · intro s
    rfl
  · intro hok
    simp [ResumeOperation, hok]
  · intro e he hnf
    simp only [ResumeOperation]
    rw [he]
    simp [hnf, resumeEffectiveParams]
  · intro e he hnf
    simp only [ResumeOperation]
    rw [he]
    simp [hnf]

/-- Witness for `resume_operation_contract`: with no operations at all,
resumption falls back to the built-in installer's Restart. -/
theorem resume_operation_contract_witness :
    ResumeOperation testHandlers [] testParams =
      (testParams.installer.getD (defaultInstaller testHandlers)).restart :=
  (resume_operation_contract testHandlers [] testParams).2.2.2.1
    (.notFound "no operation found")
    (by simp [ExecutePhase, getActiveOperation, getBackendOperations, matchesFilter,
      resumeEffectiveParams, testParams])
    (by rfl)

theorem mapLookup_mapInsert_self (m : List (String × SiteOperation)) (op : SiteOperation) :
    mapLookup (mapInsert m op) op.id = some op := by
  induction m with
  | nil => simp [mapInsert, mapLookup]
  | cons kv rest ih =>
    obtain ⟨k, v⟩ := kv
    by_cases hk : k = op.id
    · simp [mapInsert, mapLookup, hk]
    · simp [mapInsert, mapLookup, hk, ih]

theorem mapLookup_mapInsert_ne (m : List (String × SiteOperation)) (op : SiteOperation)
    (k : String) (hk : k ≠ op.id) :
    mapLookup (mapInsert m op) k = mapLookup m k := by
  have hik : op.id ≠ k := Ne.symm hk
  induction m with
  | nil => simp [mapInsert, mapLookup, hik]
  | cons kv rest ih =>
    obtain ⟨k', v⟩ := kv
    by_cases hk' : k' = op.id
    · subst hk'
      simp [mapInsert, mapLookup, hik]
    · by_cases hkk : k' = k
      · simp [mapInsert, mapLookup, hk', hkk, hk]
      · simp [mapInsert, mapLookup, hk', hkk, ih]

theorem getOperationAndUpdateCache_lookup_self (r : BackendOperations) (op : SiteOperation) :
    mapLookup (r.getOperationAndUpdateCache (some op)).operations op.id = some op :=
  mapLookup_mapInsert_self r.operations op

theorem getOperationAndUpdateCache_lookup_preserved (r : BackendOperations)
    (res : Option SiteOperation) (k : String) (hne : ∀ o, res = some o → o.id ≠ k) :
    mapLookup (r.getOperationAndUpdateCache res).operations k = mapLookup r.operations k := by
  cases res with
  | none => rfl
  | some o =>
    have hko : k ≠ o.id := fun h => hne o rfl h.symm
    exact mapLookup_mapInsert_ne r.operations o k hko

theorem getOperationAndUpdateCache_clusterOperation (r : BackendOperations)
    (res : Option SiteOperation) :
    (r.getOperationAndUpdateCache res).clusterOperation = r.clusterOperation := by
  cases res <;> rfl

/-- C6: the sources merge in the fixed order cluster → update-env → join-env
→ install, a later merge overwriting the earlier entry for the same ID
(first conjunct); in particular an operation ID supplied by both the cluster
backend and the update-environment backend maps to the update-environment's
version in the final merged set, provided no later-merged source (join-env
or install) supplies the same ID — the implicit proviso of the claim, since
by its own overwrite rule such a later source would win. -/
theorem update_env_overwrites_cluster (inp : ListInputs) (opU : SiteOperation) :
    (∀ (r : BackendOperations) (op : SiteOperation),
      mapLookup (r.getOperationAndUpdateCache (some op)).operations op.id = some op ∧
      ∀ k, k ≠ op.id →
        mapLookup (r.getOperationAndUpdateCache (some op)).operations k =
          mapLookup r.operations k) ∧
    (inp.updateSrc = some (some opU) →
      (∃ copU ∈ (inp.clusterOps.getD []), copU.id = opU.id) →
      (∀ o, inp.joinSrc = some (some o) → o.id ≠ opU.id) →
      (∀ o, inp.remoteOp = some o → o.id ≠ opU.id) →
      (∀ o, inp.wizardLocalOp = some o → o.id ≠ opU.id) →
      ∀ r, BackendOperations.list inp = .ok r →
        mapLookup r.operations opU.id = some opU) := by
  constructor
  · intro r op
    exact ⟨getOperationAndUpdateCache_lookup_self r op,
      fun k hk => mapLookup_mapInsert_ne r.operations op k hk⟩
  · intro hupd _ hjoin hremote hwizard r hr
    have hpref : mapLookup (BackendOperations.listFirstThree inp).operations opU.id = some opU := by
      simp only [BackendOperations.listFirstThree, hupd]
      cases hj : inp.joinSrc with
      | none => exact getOperationAndUpdateCache_lookup_self _ opU
      | some res =>
        rw [getOperationAndUpdateCache_lookup_preserved _ res opU.id
          (fun o ho => hjoin o (by rw [hj, ho]))]
        exact getOperationAndUpdateCache_lookup_self _ opU
    simp only [BackendOperations.list] at hr
    by_cases hact : (BackendOperations.listFirstThree inp).isActiveInstallOperation = true
    · rw [if_pos hact] at hr
      by_cases hrem : inp.remoteEnvOk = true
      · rw [if_pos hrem] at hr
        injection hr with hr
        subst hr
        rw [getOperationAndUpdateCache_lookup_preserved _ inp.remoteOp opU.id hremote]
        exact hpref
      · rw [if_neg hrem] at hr
        cases hw : inp.wizardLocalEnvErr with
        | some e =>
          rw [hw] at hr
          cases hr
        | none =>
          rw [hw] at hr
          injection hr with hr
          subst hr
          rw [getOperationAndUpdateCache_lookup_preserved _ inp.wizardLocalOp opU.id hwizard]
          exact hpref
    · rw [if_neg hact] at hr
      injection hr with hr
      subst hr
      exact hpref

/-- A cluster-backend copy of operation "x" (completed, older). -/
def clusterOpX : SiteOperation := ⟨"x", "operation_update", 3, true⟩

/-- The update-environment copy of operation "x" (newer). -/
def updateOpX : SiteOperation := ⟨"x", "operation_update", 7, false⟩

/-- Inputs where both the cluster backend and the update environment supply
operation "x". -/
def inpC6 : ListInputs :=
  { clusterEnvOk := true, clusterOps := some [clusterOpX],
    updateSrc := some (some updateOpX), joinSrc := none,
    remoteEnvOk := false, remoteOp := none,
    wizardLocalEnvErr := some (.other "e"), wizardLocalOp := none }

/-- The merged result of a pass over `inpC6`. -/
def rC6 : BackendOperations :=
  { operations := [("x", updateOpX)], clusterOperation := some clusterOpX }

/-- Witness for `update_env_overwrites_cluster`: operation "x" is supplied
by the cluster backend and the update environment, and the update
environment's version ends up in the merged set. -/
theorem update_env_overwrites_cluster_witness :
    mapLookup rC6.operations updateOpX.id = some updateOpX :=
  (update_env_overwrites_cluster inpC6 updateOpX).2 rfl (by decide)
    (by intro o h; simp [inpC6] at h)
    (by intro o h; simp [inpC6] at h)
    (by intro o h; simp [inpC6] at h)
    rC6 (by rfl)

theorem listFirstThree_clusterOperation_none_iff (inp : ListInputs) :
    ((BackendOperations.listFirstThree inp).clusterOperation = none) ↔
      (inp.clusterEnvOk = false ∨ inp.clusterOps = none ∨ inp.clusterOps = some []) := by
  cases hju : inp.joinSrc <;> cases hup : inp.updateSrc <;>
    by_cases hce : inp.clusterEnvOk <;>
      rcases hco : inp.clusterOps with _ | ⟨_ | ⟨f, rest⟩⟩ <;>
        simp [BackendOperations.listFirstThree, getOperationAndUpdateCache_clusterOperation,
          hju, hup, hce, hco, BackendOperations.init, newBackendOperations]

/-- C4: the install/wizard sources are consulted iff the Cluster Operation
Pointer is absent — equivalently, the cluster backend failed or returned no
operations — or points at an Install operation: with a non-Install pointer
the pass ends at the three-source prefix and its outcome is independent of
the remote-operator and local-wizard inputs, and otherwise the outcome is
exactly the prefix extended with the consulted install source's result. -/
theorem install_sources_consulted_iff (inp : ListInputs) :
    (∀ op, (BackendOperations.listFirstThree inp).clusterOperation = some op →
        op.opType ≠ OperationInstall →
        BackendOperations.list inp = .ok (BackendOperations.listFirstThree inp) ∧
        ∀ (b : Bool) (ro : Option SiteOperation) (we : Option TraceError)
            (wo : Option SiteOperation),
          BackendOperations.list
            { inp with
              remoteEnvOk := b
              remoteOp := ro
              wizardLocalEnvErr := we
              wizardLocalOp := wo } =
            BackendOperations.list inp) ∧
    (((BackendOperations.listFirstThree inp).clusterOperation = none ∨
      (∃ op, (BackendOperations.listFirstThree inp).clusterOperation = some op ∧
        op.opType = OperationInstall)) →
      (inp.remoteEnvOk = true →
        BackendOperations.list inp =
          .ok ((BackendOperations.listFirstThree inp).getOperationAndUpdateCache inp.remoteOp)) ∧
      (inp.remoteEnvOk = false → inp.wizardLocalEnvErr = none →
        BackendOperations.list inp =
          .ok ((BackendOperations.listFirstThree inp).getOperationAndUpdateCache
            inp.wizardLocalOp))) ∧
    ((BackendOperations.listFirstThree inp).clusterOperation = none ↔
      (inp.clusterEnvOk = false ∨ inp.clusterOps = none ∨ inp.clusterOps = some [])) := by
  refine ⟨?_, ?_, listFirstThree_clusterOperation_none_iff inp⟩
  · intro op hop hni
    have hact : (BackendOperations.listFirstThree inp).isActiveInstallOperation = false := by
      simp [BackendOperations.isActiveInstallOperation, hop, hni]
    have hsame : BackendOperations.listFirstThree
        { inp with
          remoteEnvOk := true
          remoteOp := none
          wizardLocalEnvErr := none
          wizardLocalOp := none } =
        BackendOperations.listFirstThree inp := rfl
    constructor
    · simp [BackendOperations.list, hact]
    · intro b ro we wo
      have hsame' : BackendOperations.listFirstThree
          { inp with
            remoteEnvOk := b
            remoteOp := ro
            wizardLocalEnvErr := we
            wizardLocalOp := wo } =
          BackendOperations.listFirstThree inp := rfl
      simp [BackendOperations.list, hsame', hact]
  · intro hdisj
    have hact : (BackendOperations.listFirstThree inp).isActiveInstallOperation = true := by
      rcases hdisj with hnone | ⟨op, hop, hinst⟩
      · simp [BackendOperations.isActiveInstallOperation, hnone]
      · simp [BackendOperations.isActiveInstallOperation, hop, hinst]
    constructor
    · intro hrem
      simp [BackendOperations.list, hact, hrem]
    · intro hrem hw
      simp [BackendOperations.list, hact, hrem, hw]

/-- Witness for `install_sources_consulted_iff`: with a non-Install cluster
pointer the pass succeeds without consulting the install sources — varying
the remote and wizard inputs does not change the outcome. -/
theorem install_sources_consulted_iff_witness :
    BackendOperations.list inpC6 = .ok (BackendOperations.listFirstThree inpC6) ∧
    BackendOperations.list
      { inpC6 with
        remoteEnvOk := true
        remoteOp := some updateOpX
        wizardLocalEnvErr := none
        wizardLocalOp := some clusterOpX } =
      BackendOperations.list inpC6 :=
  ⟨((install_sources_consulted_iff inpC6).1 clusterOpX rfl (by decide)).1,
   ((install_sources_consulted_iff inpC6).1 clusterOpX rfl (by decide)).2
     true (some updateOpX) none (some clusterOpX)⟩

/-- Inputs where the install sources are consulted, the remote path is
unavailable, and the local wizard environment cannot be opened. -/
def inpWizardFail : ListInputs :=
  { clusterEnvOk := false
    clusterOps := none
    updateSrc := none
    joinSrc := none
    remoteEnvOk := false
    remoteOp := none
    wizardLocalEnvErr := some (.other "failed to open local wizard environment")
    wizardLocalOp := none }

/-- C5 counterexample: the install sources are consulted (no cluster
pointer), the remote path is unavailable, and the failure to open the local
wizard environment makes the whole List pass fail — so failure to obtain an
install-source operation is not non-fatal in every case. -/
theorem install_source_failure_fatal_counterexample :
    (BackendOperations.listFirstThree inpWizardFail).isActiveInstallOperation = true ∧
    BackendOperations.list inpWizardFail =
      .error (.other "failed to open local wizard environment") :=
  ⟨rfl, rfl⟩

/-- C5 (amended): when install sources are consulted, the remote operator
API is attempted first; on its success its operation is merged and the local
wizard backend is not consulted (the outcome is independent of the wizard
inputs); on remote failure the local wizard backend is consulted and its
result merged; a failed operation getter on either source is non-fatal —
but failure to open the local wizard environment itself aborts the List
pass with that error. -/
theorem install_sources_best_effort (inp : ListInputs)
    (hact : (BackendOperations.listFirstThree inp).isActiveInstallOperation = true) :
    (inp.remoteEnvOk = true →
      BackendOperations.list inp =
        .ok ((BackendOperations.listFirstThree inp).getOperationAndUpdateCache inp.remoteOp) ∧
      (∀ (we : Option TraceError) (wo : Option SiteOperation),
        BackendOperations.list
          { inp with
            wizardLocalEnvErr := we
            wizardLocalOp := wo } =
          BackendOperations.list inp) ∧
      (inp.remoteOp = none →
        BackendOperations.list inp = .ok (BackendOperations.listFirstThree inp))) ∧
    (inp.remoteEnvOk = false →
      (inp.wizardLocalEnvErr = none →
        BackendOperations.list inp =
          .ok ((BackendOperations.listFirstThree inp).getOperationAndUpdateCache
            inp.wizardLocalOp) ∧
        (inp.wizardLocalOp = none →
          BackendOperations.list inp = .ok (BackendOperations.listFirstThree inp))) ∧
      (∀ e, inp.wizardLocalEnvErr = some e →
        BackendOperations.list inp = .error e)) := by
  constructor
  · intro hrem
    refine ⟨?_, ?_, ?_⟩
    · simp [BackendOperations.list, hact, hrem]
    · intro we wo
      have hsame : BackendOperations.listFirstThree
          { inp with
            wizardLocalEnvErr := we
            wizardLocalOp := wo } =
          BackendOperations.listFirstThree inp := rfl
      simp only [BackendOperations.list]
      rw [hsame]
      simp [hact, hrem]
    · intro hro
      simp [BackendOperations.list, hact, hrem, hro,
        BackendOperations.getOperationAndUpdateCache]
  · intro hrem
    constructor
    · intro hw
      constructor
      · simp [BackendOperations.list, hact, hrem, hw]
      · intro hwo
        simp [BackendOperations.list, hact, hrem, hw, hwo,
          BackendOperations.getOperationAndUpdateCache]
    · intro e he
      simp [BackendOperations.list, hact, hrem, he]

/-- Inputs where the remote operator path succeeds while the local wizard
environment is broken. -/
def inpRemoteOk : ListInputs :=
  { clusterEnvOk := false
    clusterOps := none
    updateSrc := none
    joinSrc := none
    remoteEnvOk := true
    remoteOp := some updateOpX
    wizardLocalEnvErr := some (.other "boom")
    wizardLocalOp := none }

/-- Witness for `install_sources_best_effort`: with a reachable remote
operator its operation is merged, and the broken local wizard environment
is never consulted. -/
theorem install_sources_best_effort_witness :
    BackendOperations.list inpRemoteOk =
      .ok ((BackendOperations.listFirstThree inpRemoteOk).getOperationAndUpdateCache
        inpRemoteOk.remoteOp) ∧
    BackendOperations.list
      { inpRemoteOk with
        wizardLocalEnvErr := none
        wizardLocalOp := some clusterOpX } =
      BackendOperations.list inpRemoteOk :=
  ⟨((install_sources_best_effort inpRemoteOk rfl).1 rfl).1,
   ((install_sources_best_effort inpRemoteOk rfl).1 rfl).2.1 none (some clusterOpX)⟩

theorem getLastOperation_head_max {enum : List SiteOperation} {operationID : String}
    {x : SiteOperation} {rest : List SiteOperation}
    (hl : getBackendOperations enum operationID = x :: rest) :
    x ∈ enum.filter (matchesFilter operationID) ∧
    ∀ op' ∈ enum.filter (matchesFilter operationID), op'.created ≤ x.created := by
  constructor
  · exact mem_getBackendOperations.mp (hl ▸ List.mem_cons_self x rest)
  · intro op' hop'
    have hmem' : op' ∈ getBackendOperations enum operationID :=
      mem_getBackendOperations.mpr hop'
    rw [hl] at hmem'
    rcases List.mem_cons.mp hmem' with hex | hrest
    · subst hex
      exact Nat.le_refl _
    · have hs := getBackendOperations_sorted enum operationID
      rw [hl, List.pairwise_cons] at hs
      have := hs.1 op' hrest
      simpa [opGE] using this

/-- C9 (amended): the merged value for every operation ID is a function of
the source responses, and a resolution pass is deterministic up to the
unspecified map-iteration order: any two enumerations of the merged set are
permutations of one another, and `getLastOperation` returns the same
operation on both whenever the filtered candidates have pairwise distinct
creation times.  With equal creation times the tie may resolve either way
(see the counterexample). -/
theorem resolution_deterministic_on_distinct_created (r : BackendOperations)
    (enum1 enum2 : List SiteOperation) (operationID : String)
    (h1 : r.IsEnumOf enum1) (h2 : r.IsEnumOf enum2)
    (hdist : (enum1.filter (matchesFilter operationID)).Pairwise
      (fun a b => a.created ≠ b.created)) :
    enum1.Perm enum2 ∧
    getLastOperation enum1 operationID = getLastOperation enum2 operationID := by
  have hperm : enum1.Perm enum2 := h1.trans h2.symm
  refine ⟨hperm, ?_⟩
  have hfperm : (enum1.filter (matchesFilter operationID)).Perm
      (enum2.filter (matchesFilter operationID)) := hperm.filter _
  cases hn1 : getBackendOperations enum1 operationID with
  | nil =>
    have hf1 : enum1.filter (matchesFilter operationID) = [] :=
      (getBackendOperations_eq_nil_iff enum1 operationID).mp hn1
    have hf2 : enum2.filter (matchesFilter operationID) = [] :=
      ((hf1 ▸ hfperm).nil_eq).symm
    have hn2 : getBackendOperations enum2 operationID = [] :=
      (getBackendOperations_eq_nil_iff enum2 operationID).mpr hf2
    simp only [getLastOperation]
    rw [hn1, hn2]
  | cons x1 r1 =>
    have hf1ne : enum1.filter (matchesFilter operationID) ≠ [] := by
      intro h
      rw [(getBackendOperations_eq_nil_iff enum1 operationID).mpr h] at hn1
      cases hn1
    have hf2ne : enum2.filter (matchesFilter operationID) ≠ [] := by
      intro h
      exact hf1ne ((h ▸ hfperm).eq_nil)
    have hn2ne : getBackendOperations enum2 operationID ≠ [] := by
      intro h
      exact hf2ne ((getBackendOperations_eq_nil_iff enum2 operationID).mp h)
    obtain ⟨x2, r2, hn2⟩ := List.exists_cons_of_ne_nil hn2ne
    rw [getLastOperation_cons hn1, getLastOperation_cons hn2]
    have hm1 := getLastOperation_head_max hn1
    have hm2 := getLastOperation_head_max hn2
    have hx2f1 : x2 ∈ enum1.filter (matchesFilter operationID) :=
      hfperm.mem_iff.mpr hm2.1
    have hx1f2 : x1 ∈ enum2.filter (matchesFilter operationID) :=
      hfperm.mem_iff.mp hm1.1
    have hle1 : x2.created ≤ x1.created := hm1.2 x2 hx2f1
    have hle2 : x1.created ≤ x2.created := hm2.2 x1 hx1f2
    have hceq : x1.created = x2.created := Nat.le_antisymm hle2 hle1
    by_cases hx : x1 = x2
    · rw [hx]
    · exact absurd hceq
        (hdist.forall (fun a b hab => (hab ∘ Eq.symm)) hm1.1 hx2f1 hx)

/-- The merged set of a pass whose candidates have distinct creation
times. -/
def rDet : BackendOperations :=
  { operations := [("a", ⟨"a", "operation_update", 3, true⟩),
      ("b", ⟨"b", "operation_expand", 8, false⟩)]
    clusterOperation := none }

/-- Witness for `resolution_deterministic_on_distinct_created`: two
enumeration orders of the same merged set with distinct creation times give
the same `getLastOperation` result. -/
theorem resolution_deterministic_witness :
    ([⟨"a", "operation_update", 3, true⟩, ⟨"b", "operation_expand", 8, false⟩]
        : List SiteOperation).Perm
      [⟨"b", "operation_expand", 8, false⟩, ⟨"a", "operation_update", 3, true⟩] ∧
    getLastOperation
      [⟨"a", "operation_update", 3, true⟩, ⟨"b", "operation_expand", 8, false⟩] "" =
    getLastOperation
      [⟨"b", "operation_expand", 8, false⟩, ⟨"a", "operation_update", 3, true⟩] "" :=
  resolution_deterministic_on_distinct_created rDet
    [⟨"a", "operation_update", 3, true⟩, ⟨"b", "operation_expand", 8, false⟩]
    [⟨"b", "operation_expand", 8, false⟩, ⟨"a", "operation_update", 3, true⟩] ""
    (by unfold BackendOperations.IsEnumOf mapValues rDet; decide)
    (by unfold BackendOperations.IsEnumOf mapValues rDet; decide)
    (by decide)

/-- An operation tied with `tieOpB` on creation time. -/
def tieOpA : SiteOperation := ⟨"a", "operation_update", 5, false⟩

/-- An operation tied with `tieOpA` on creation time. -/
def tieOpB : SiteOperation := ⟨"b", "operation_update", 5, false⟩

/-- Inputs whose cluster backend supplies two operations with equal creation
times (and a non-Install pointer, so no install source is consulted). -/
def inpTie : ListInputs :=
  { clusterEnvOk := true
    clusterOps := some [tieOpA, tieOpB]
    updateSrc := none
    joinSrc := none
    remoteEnvOk := false
    remoteOp := none
    wizardLocalEnvErr := none
    wizardLocalOp := none }

/-- The merged set of a pass over `inpTie`. -/
def rTie : BackendOperations :=
  { operations := [("a", tieOpA), ("b", tieOpB)]
    clusterOperation := some tieOpA }

/-- C9 counterexample: for the fixed source responses `inpTie` the merged
set is `rTie` in every run, but two runs enumerating the merged map in
different (both admissible) orders return different operations from
`getLastOperation` when creation times are tied — so the returned operation
is not the same in both runs. -/
theorem resolution_tie_counterexample :
    BackendOperations.list inpTie = .ok rTie ∧
    rTie.IsEnumOf [tieOpA, tieOpB] ∧
    rTie.IsEnumOf [tieOpB, tieOpA] ∧
    getLastOperation [tieOpA, tieOpB] "" = .ok tieOpA ∧
    getLastOperation [tieOpB, tieOpA] "" = .ok tieOpB ∧
    tieOpA ≠ tieOpB ∧
    ¬ (∀ e1 e2, rTie.IsEnumOf e1 → rTie.IsEnumOf e2 →
        getLastOperation e1 "" = getLastOperation e2 "") := by
  have henum1 : rTie.IsEnumOf [tieOpA, tieOpB] := by
    unfold BackendOperations.IsEnumOf mapValues rTie
    decide
  have henum2 : rTie.IsEnumOf [tieOpB, tieOpA] := by
    unfold BackendOperations.IsEnumOf mapValues rTie
    decide
  have hfAB : List.filter (matchesFilter "") [tieOpA, tieOpB] = [tieOpA, tieOpB] := by
    decide
  have hfBA : List.filter (matchesFilter "") [tieOpB, tieOpA] = [tieOpB, tieOpA] := by
    decide
  have hlAB : getBackendOperations [tieOpA, tieOpB] "" = [tieOpA, tieOpB] := by
    unfold getBackendOperations
    rw [hfAB]
    exact List.mergeSort_of_sorted (by decide)
  have hlBA : getBackendOperations [tieOpB, tieOpA] "" = [tieOpB, tieOpA] := by
    unfold getBackendOperations
    rw [hfBA]
    exact List.mergeSort_of_sorted (by decide)
  have hAB : getLastOperation [tieOpA, tieOpB] "" = .ok tieOpA :=
    getLastOperation_cons hlAB
  have hBA : getLastOperation [tieOpB, tieOpA] "" = .ok tieOpB :=
    getLastOperation_cons hlBA
  refine ⟨rfl, henum1, henum2, hAB, hBA, by decide, ?_⟩
  intro H
  have hsame := H [tieOpA, tieOpB] [tieOpB, tieOpA] henum1 henum2
  rw [hAB, hBA] at hsame
  have : tieOpA = tieOpB := Except.ok.inj hsame
  exact absurd this (by decide)
